import Mathlib

/-!
Shallow embedding of the Jupyter notebook
`00_introducing_asyncio/00_introducing_asyncio.ipynb`.

The notebook is a sequence of code cells.  Each code cell is embedded as a
record of the module-level names it binds, the external names it
references, the library primitives it invokes when it runs, and the
execution outcome recorded in the notebook.  The functions of the
notebook with genuine computational content (`named_timer`, `cpu_bound`
and the first `routine`) are additionally embedded as Lean functions; the
ambient effects (wall clock, random generator, standard output) are
threaded through an explicit `World` state.
-/

/-- Kind of Python error recorded in the notebook output. -/
inductive PyError
  | pySyntaxError
  | pyRuntimeError
  deriving DecidableEq

/-- Result of executing one code cell, as recorded in the notebook:
success, success with a printed `RuntimeWarning`, or an error. -/
inductive CellOutcome
  | ok
  | okWithWarning
  | err (e : PyError)
  deriving DecidableEq

/-- Whether an outcome is an error. -/
def CellOutcome.isErr : CellOutcome → Bool
  | .err _ => true
  | _ => false

/-- One code cell of the notebook.  `ident` is the cell id from the
notebook file.  `defines` lists the module-level names the cell binds, in
binding order.  `uses` lists the names the cell references without binding
them itself; Python builtins (`print`, `round`, `range`, `sum`, `object`,
list methods) and the always-present module global `__name__` are not
listed.  `calls` lists the library and builtin primitives that run when
the cell executes.  `awaitInPlainDef` records that the cell text contains
`await` inside an ordinary `def` function; `runInActiveLoop` records that
the cell calls `asyncio.run` while the ambient Jupyter event loop is
already running. -/
structure NbCell where
  ident : String
  defines : List String
  uses : List String
  calls : List String
  awaitInPlainDef : Bool
  runInActiveLoop : Bool
  outcome : CellOutcome
  deriving DecidableEq

/-- The code cells of `00_introducing_asyncio.ipynb`, in notebook order. -/
def notebookCells : List NbCell := [
  -- cell 516564ee: the import cell
  ⟨"516564ee", ["asyncio", "inspect", "random", "sys", "time", "threading", "typing"],
    [], [], false, false, .ok⟩,
  -- cell 7564be76: first `routine` (random sleep, returns sleep_time ** 10),
  -- called three times sequentially with timing
  ⟨"7564be76", ["routine", "start", "results"], ["time", "random"],
    ["time.time", "range", "random.randint", "print", "time.sleep", "round"],
    false, false, .ok⟩,
  -- cell e1bcdd45: reference-count illustration
  ⟨"e1bcdd45", ["obj", "lst"], ["sys"],
    ["object", "print", "sys.getrefcount", "list.append"],
    false, false, .ok⟩,
  -- cell b75bba9d: definitions of named_timer, cpu_bound, io_bound
  ⟨"b75bba9d", ["named_timer", "cpu_bound", "io_bound"], ["time", "typing"],
    [], false, false, .ok⟩,
  -- cell 0064bcd7: CPU-bound work performed sequentially
  ⟨"0064bcd7", [], ["named_timer", "cpu_bound"],
    ["time.time", "sum", "range", "round", "print"],
    false, false, .ok⟩,
  -- cell 2b82c36f: threads for the CPU-bound work
  ⟨"2b82c36f", ["t1", "t2", "start"], ["threading", "named_timer", "cpu_bound", "time"],
    ["threading.Thread", "time.time", "Thread.start", "Thread.join", "sum", "range",
      "round", "print"],
    false, false, .ok⟩,
  -- cell 03aa4871: I/O-bound work performed sequentially
  ⟨"03aa4871", ["start"], ["time", "named_timer", "io_bound"],
    ["time.time", "time.sleep", "round", "print"],
    false, false, .ok⟩,
  -- cell 5d21eed4: threads for the I/O-bound work
  ⟨"5d21eed4", ["t1", "t2", "start"], ["threading", "named_timer", "io_bound", "time"],
    ["threading.Thread", "time.time", "Thread.start", "Thread.join", "time.sleep",
      "round", "print"],
    false, false, .ok⟩,
  -- cell 03c13abf: refactored threading (start and join in one loop)
  ⟨"03c13abf", ["threads", "start", "thread"], ["threading", "named_timer", "io_bound", "time"],
    ["threading.Thread", "time.time", "Thread.start", "Thread.join", "time.sleep",
      "round", "print"],
    false, false, .ok⟩,
  -- cell 80ca7b74: re-refactored threading (separate start and join loops)
  ⟨"80ca7b74", ["threads", "start", "thread"], ["threading", "named_timer", "io_bound", "time"],
    ["threading.Thread", "time.time", "Thread.start", "Thread.join", "time.sleep",
      "round", "print"],
    false, false, .ok⟩,
  -- cell c1984ac3: second `routine` (redefines the name `routine`)
  ⟨"c1984ac3", ["routine", "ro_res"], ["inspect", "time"],
    ["inspect.isroutine", "print", "time.sleep"],
    false, false, .ok⟩,
  -- cell 614beb1a: `coroutine`, called and awaited
  ⟨"614beb1a", ["coroutine", "coro_called", "coro_awaited"], ["asyncio", "inspect"],
    ["inspect.iscoroutine", "print", "asyncio.sleep"],
    false, false, .ok⟩,
  -- cell c32f87c9: `f` invoked without await (RuntimeWarning), then awaited
  ⟨"c32f87c9", ["f"], ["asyncio"], ["asyncio.sleep"],
    false, false, .okWithWarning⟩,
  -- cell 47ecebca: `error_routine` with `await` inside a plain def;
  -- compilation fails, so nothing is bound and nothing runs
  ⟨"47ecebca", [], ["asyncio"], [],
    true, false, .err .pySyntaxError⟩,
  -- cell c8699244: definition of `main`
  ⟨"c8699244", ["main"], ["routine", "coroutine"], [],
    false, false, .ok⟩,
  -- cell 12aadf65: asyncio.run(main()) under the running Jupyter loop
  ⟨"12aadf65", [], ["asyncio", "main"], ["asyncio.run"],
    false, true, .err .pyRuntimeError⟩,
  -- cell a0c7de1b: await main()
  ⟨"a0c7de1b", [], ["main"], ["print", "time.sleep", "asyncio.sleep"],
    false, false, .ok⟩]

/-- `noEarlierUse created cs` holds when, walking the cells `cs` in order
with `created` the names bound by earlier cells, no cell references a name
bound by an earlier cell.  This is claim C2 as stated: every cell is
independent of the bindings of all preceding cells. -/
def noEarlierUse : List String → List NbCell → Bool
  | _, [] => true
  | created, c :: rest =>
      c.uses.all (fun n => !(created.contains n)) &&
      noEarlierUse (created ++ c.defines) rest

/-- `allUsesResolved created cs` holds when, walking the cells in order,
every name a cell references is bound by some earlier cell (or by `created`).
With `created = []` this says top-to-bottom execution never meets an
unresolved name. -/
def allUsesResolved : List String → List NbCell → Bool
  | _, [] => true
  | created, c :: rest =>
      c.uses.all (fun n => created.contains n) &&
      allUsesResolved (created ++ c.defines) rest

/-- `noCrossBinding created cs` holds when no cell references or rebinds a
module-level name bound by an earlier cell.  This is claim C3 as stated:
no global binding crosses a snippet boundary. -/
def noCrossBinding : List String → List NbCell → Bool
  | _, [] => true
  | created, c :: rest =>
      c.uses.all (fun n => !(created.contains n)) &&
      c.defines.all (fun n => !(created.contains n)) &&
      noCrossBinding (created ++ c.defines) rest

/-- All names that some cell references after an earlier cell bound them
(with multiplicity, in reading order). -/
def crossReads : List String → List NbCell → List String
  | _, [] => []
  | created, c :: rest =>
      c.uses.filter (fun n => created.contains n) ++
      crossReads (created ++ c.defines) rest

/-- All names that some cell rebinds after an earlier cell bound them
(with multiplicity, in reading order). -/
def crossRebinds : List String → List NbCell → List String
  | _, [] => []
  | created, c :: rest =>
      c.defines.filter (fun n => created.contains n) ++
      crossRebinds (created ++ c.defines) rest

/-- Deduplicate a list keeping the first occurrence of each element. -/
def firstOccurrences : List String → List String → List String
  | _, [] => []
  | seen, n :: rest =>
      if seen.contains n then firstOccurrences seen rest
      else n :: firstOccurrences (n :: seen) rest

/-- The names bound by the first (import) cell of the notebook. -/
def firstCellDefines : List String :=
  match notebookCells with
  | c :: _ => c.defines
  | [] => []

/-- The modules the notebook imports, as written in the import cell. -/
def importedModules : List String :=
  ["asyncio", "inspect", "random", "sys", "time", "threading", "typing"]

/-- A sufficient fragment of the Python 3.10 standard library module list
(only used to check membership of the notebook imports). -/
def pythonStdlibModules : List String :=
  ["abc", "asyncio", "collections", "concurrent", "contextlib", "dataclasses",
   "functools", "inspect", "itertools", "json", "logging", "math",
   "multiprocessing", "os", "pathlib", "random", "re", "socket", "subprocess",
   "sys", "threading", "time", "typing", "unittest"]

/-- Documented process-external behaviour of a library or builtin
primitive: whether it reads the command line, the environment variables or
the filesystem, writes the filesystem, or writes standard output. -/
structure PrimSpec where
  readsArgv : Bool
  readsEnv : Bool
  readsFiles : Bool
  writesFiles : Bool
  writesStdout : Bool
  deriving DecidableEq

/-- A primitive that touches nothing outside the process. -/
def effectFree : PrimSpec := ⟨false, false, false, false, false⟩

/-- A primitive whose only process-external effect is standard output. -/
def stdoutOnly : PrimSpec := ⟨false, false, false, false, true⟩

/-- Classification of every primitive the notebook invokes, per its
documented behaviour: `print` writes standard output; clock reads, sleeps,
random draws, refcount reads, thread control and event-loop control touch
neither the command line, the environment, nor the filesystem.  Primitives
outside this table are unclassified (`none`). -/
def primSpec : String → Option PrimSpec
  | "print" => some stdoutOnly
  | "round" => some effectFree
  | "sum" => some effectFree
  | "range" => some effectFree
  | "object" => some effectFree
  | "list.append" => some effectFree
  | "time.time" => some effectFree
  | "time.sleep" => some effectFree
  | "random.randint" => some effectFree
  | "sys.getrefcount" => some effectFree
  | "threading.Thread" => some effectFree
  | "Thread.start" => some effectFree
  | "Thread.join" => some effectFree
  | "asyncio.sleep" => some effectFree
  | "asyncio.run" => some effectFree
  | "inspect.isroutine" => some effectFree
  | "inspect.iscoroutine" => some effectFree
  | _ => none

/-- A primitive is externally silent when it is classified and touches
neither the command line, the environment variables, nor the filesystem. -/
def externallySilent (k : String) : Bool :=
  match primSpec k with
  | some p => !p.readsArgv && !p.readsEnv && !p.readsFiles && !p.writesFiles
  | none => false

/-- The `uses` list of the notebook cell with the given id. -/
def usesOf (id : String) : List String :=
  match notebookCells.find? (fun c => c.ident == id) with
  | some c => c.uses
  | none => []

/-- The `defines` list of the notebook cell with the given id. -/
def definesOf (id : String) : List String :=
  match notebookCells.find? (fun c => c.ident == id) with
  | some c => c.defines
  | none => []

/-- The ambient state a notebook snippet interacts with: the wall clock,
the pseudo-random generator (an unspecified stream of draws together with
the number of draws consumed so far), and the standard-output lines
printed so far. -/
structure World where
  clock : ℚ
  rngStream : ℕ → ℕ
  rngUsed : ℕ
  output : List String

/-- Embedding of `time.time()`: read the wall clock. -/
def time_time (w : World) : ℚ × World := (w.clock, w)

/-- Embedding of `time.sleep(t)`: advance the wall clock by `t`. -/
def time_sleep (t : ℚ) (w : World) : World :=
  ⟨w.clock + t, w.rngStream, w.rngUsed, w.output⟩

/-- Embedding of `print(s)`: append a line to standard output. -/
def print_line (s : String) (w : World) : World :=
  ⟨w.clock, w.rngStream, w.rngUsed, w.output ++ [s]⟩

/-- Embedding of `random.randint(a, b)`: consume the next draw of the
generator stream and map it into the inclusive interval `[a, b]`. -/
def random_randint (a b : ℤ) (w : World) : ℤ × World :=
  (a + (w.rngStream w.rngUsed : ℤ) % (b - a + 1),
   ⟨w.clock, w.rngStream, w.rngUsed + 1, w.output⟩)

/-- Embedding of Python `round(q, 2)`: round to two decimal places. -/
def round2 (q : ℚ) : ℚ := (round (q * 100) : ℚ) / 100

/-- Embedding of the notebook decorator `named_timer` (cell b75bba9d): the
returned wrapper reads the clock, runs the wrapped function on the
forwarded arguments, prints one timing line, and passes the result
through.  The argument tuple `args` stands for the forwarded
`*args, **kwargs`. -/
def named_timer {α β : Type} (name : String) (func : α → World → β × World) :
    α → World → β × World :=
  fun args w =>
    let s := (time_time w).1
    let r := func args w
    let e := round2 ((time_time r.2).1 - s)
    let w2 := print_line (name ++ " elapsed time: " ++ toString e) r.2
    (r.1, w2)

/-- Embedding of the first `routine` of the notebook (cell 7564be76):
draw `sleep_time = random.randint(1, 5)`, print, sleep, print, and return
`sleep_time ** 10`. -/
def routine (name : String) (w : World) : ℤ × World :=
  let r := random_randint 1 5 w
  let w2 := print_line (name ++ " is sleeping for " ++ toString r.1 ++ " seconds.") r.2
  let w3 := time_sleep (r.1 : ℚ) w2
  let w4 := print_line (name ++ " has woken up.") w3
  (r.1 ^ 10, w4)

/-- Number of elements of Python `range(s, e, st)` for a non-zero step,
following the CPython computation: for a positive step and `s < e` it is
`(e - s - 1) div st + 1`, symmetrically for a negative step, and `0` when
the range is empty.  (CPython raises `ValueError` for `st = 0`; the value
`0` here is a placeholder outside the domain of the claims.) -/
def pyRangeLen (s e st : ℤ) : ℕ :=
  if 0 < st then (if s < e then (e - s - 1).toNat / st.toNat + 1 else 0)
  else if st < 0 then (if e < s then (s - e - 1).toNat / (-st).toNat + 1 else 0)
  else 0

/-- The elements of Python `range(s, e, st)` in order: `s + i * st` for
`i` below `pyRangeLen s e st`. -/
def pyRange (s e st : ℤ) : List ℤ :=
  (List.range (pyRangeLen s e st)).map (fun i : ℕ => s + (i : ℤ) * st)

/-- Embedding of `cpu_bound` (cell b75bba9d):
`sum([num ** 2 for num in range(start, end, step)])`. -/
def cpu_bound (s e st : ℤ) : ℤ :=
  ((pyRange s e st).map (fun num => num ^ 2)).sum

/-- The claim-side description of `cpu_bound`: the sum of `num ^ 2` over
every integer `num` of the arithmetic progression described by
`range(s, e, st)` — for a positive step, the `num` with
`s ≤ num < e` and `st ∣ num - s`; for a negative step, the `num` with
`e < num ≤ s` and `st ∣ num - s`. -/
def cpu_bound_spec (s e st : ℤ) : ℤ :=
  if 0 < st then
    (((Finset.Icc s (e - 1)).filter (fun n => st ∣ n - s)).sum (fun n => n ^ 2))
  else
    (((Finset.Icc (e + 1) s).filter (fun n => st ∣ n - s)).sum (fun n => n ^ 2))

/-- C1: the notebook demonstrates exactly two error outcomes: the cell
defining `error_routine` (47ecebca), which has `await` inside an ordinary
`def`, fails with a SyntaxError, and the cell calling `asyncio.run(main())`
under the already running event loop (12aadf65) fails with a RuntimeError;
no other cell terminates with an error, and a cell errs with a SyntaxError
exactly when it puts `await` in a plain `def`, with a RuntimeError exactly
when it calls `asyncio.run` inside the active loop. -/
theorem notebook_two_error_cells :
    ((notebookCells.filter (fun c => c.outcome.isErr)).map (fun c => (c.ident, c.outcome))
      = [("47ecebca", CellOutcome.err PyError.pySyntaxError),
         ("12aadf65", CellOutcome.err PyError.pyRuntimeError)])
    ∧ (notebookCells.all (fun c =>
        ((c.outcome == CellOutcome.err PyError.pySyntaxError) == c.awaitInPlainDef)
        && ((c.outcome == CellOutcome.err PyError.pyRuntimeError) == c.runInActiveLoop))
        = true) := by
  exact ⟨by decide, by decide⟩

/-- C2 counterexample: the notebook cells are not mutually independent:
cell 0064bcd7 references `named_timer` and `cpu_bound`, which are bound
only by the earlier cell b75bba9d, so executing it alone in a fresh
environment cannot succeed. -/
theorem cells_not_independent :
    noEarlierUse [] notebookCells = false
    ∧ usesOf "0064bcd7" = ["named_timer", "cpu_bound"]
    ∧ definesOf "b75bba9d" = ["named_timer", "cpu_bound", "io_bound"] := by
  exact ⟨by decide, by decide, by decide⟩

/-- C2 amended: the cells are not self-contained, but they resolve top to
bottom: every name a cell references is bound by that cell or by some
earlier cell, so running the notebook in order never meets an undefined
name. -/
theorem cells_resolve_top_to_bottom :
    allUsesResolved [] notebookCells = true := by decide

/-- C3 counterexample: module-level state does cross cell boundaries:
`named_timer` is bound by one cell and read by later cells, and the name
`routine` is rebound by a later cell. -/
theorem bindings_cross_cells :
    noCrossBinding [] notebookCells = false
    ∧ "named_timer" ∈ crossReads [] notebookCells
    ∧ "routine" ∈ crossRebinds [] notebookCells := by
  exact ⟨by decide, by decide, by decide⟩

/-- C3 amended: the module-level names read across cell boundaries are
exactly the seven imported modules together with the functions `routine`,
`named_timer`, `cpu_bound`, `io_bound`, `coroutine` and `main`; the names
rebound across boundaries are exactly the scratch names `start`, `t1`,
`t2`, `threads`, `thread` and the function name `routine`, and no scratch
variable value is ever read by a later cell. -/
theorem cross_cell_state_is_defs_and_imports :
    firstOccurrences [] (crossReads [] notebookCells)
      = ["time", "random", "sys", "typing", "named_timer", "cpu_bound", "threading",
         "io_bound", "inspect", "asyncio", "routine", "coroutine", "main"]
    ∧ firstOccurrences [] (crossRebinds [] notebookCells)
      = ["start", "t1", "t2", "threads", "thread", "routine"] := by
  exact ⟨by decide, by decide⟩

/-- C4: the import cell imports exactly `asyncio`, `inspect`, `random`,
`sys`, `time`, `threading` and `typing`, all of which are Python
standard-library modules; every primitive any cell invokes is a
standard-library or builtin one from the classification table; and every
name the cells reference is bound inside the notebook itself, so no
third-party package is used. -/
theorem notebook_uses_only_stdlib :
    firstCellDefines = importedModules
    ∧ importedModules.all (fun m => pythonStdlibModules.contains m) = true
    ∧ notebookCells.all (fun c => c.calls.all (fun k => (primSpec k).isSome)) = true
    ∧ allUsesResolved [] notebookCells = true := by
  exact ⟨by decide, by decide, by decide, by decide⟩

/-- C5: every primitive invoked by any cell is classified and reads
neither the command line, the environment variables, nor the filesystem,
and writes no files; the only classified process-external effect in the
table is writing standard output (`print`). -/
theorem notebook_externally_silent :
    notebookCells.all (fun c => c.calls.all externallySilent) = true := by decide

/-- C6: the `named_timer` decorator is return-value transparent: for
every name, wrapped function, argument tuple and ambient world, the
wrapper returns exactly the value the wrapped function returns, adding
only a printed timing line. -/
theorem named_timer_transparent {α β : Type} (name : String)
    (func : α → World → β × World) (args : α) (w : World) :
    (named_timer name func args w).1 = (func args w).1 := rfl

/-- C8: for every name and ambient world, the first `routine` returns
`n ^ 10` where `n` is the drawn sleep time, an integer between 1 and 5
inclusive; hence the return value lies between 1 and 9765625. -/
theorem routine_returns_tenth_power (name : String) (w : World) :
    ∃ n : ℤ, 1 ≤ n ∧ n ≤ 5 ∧ (routine name w).1 = n ^ 10
      ∧ 1 ≤ (routine name w).1 ∧ (routine name w).1 ≤ 9765625 := by
  have hmod0 : 0 ≤ (w.rngStream w.rngUsed : ℤ) % 5 := Int.emod_nonneg _ (by norm_num)
  have hmod5 : (w.rngStream w.rngUsed : ℤ) % 5 < 5 := Int.emod_lt_of_pos _ (by norm_num)
  set x : ℤ := (w.rngStream w.rngUsed : ℤ) % 5 with hx
  have hval : (routine name w).1 = (1 + x) ^ 10 := by
    show (1 + (w.rngStream w.rngUsed : ℤ) % (5 - 1 + 1)) ^ 10 = (1 + x) ^ 10
    norm_num [hx]
  have hlow : (1 : ℤ) ≤ (1 + x) ^ 10 := by
    calc (1 : ℤ) = 1 ^ 10 := by norm_num
    _ ≤ (1 + x) ^ 10 := pow_le_pow_left₀ (by norm_num) (by omega) 10
  have hhigh : (1 + x) ^ 10 ≤ 9765625 := by
    calc (1 + x) ^ 10 ≤ 5 ^ 10 := pow_le_pow_left₀ (by omega) (by omega) 10
    _ = 9765625 := by norm_num
  exact ⟨1 + x, by omega, by omega, hval, by omega, by omega⟩

/-- For a positive step, membership in the embedded `range` is the
arithmetic progression condition. -/
theorem mem_pyRange_pos {s e st : ℤ} (hst : 0 < st) (n : ℤ) :
    n ∈ pyRange s e st ↔ (s ≤ n ∧ n < e ∧ st ∣ n - s) := by
  unfold pyRange pyRangeLen
  rw [if_pos hst]
  by_cases hse : s < e
  · rw [if_pos hse]
    simp only [List.mem_map, List.mem_range]
    have hstn : (st.toNat : ℤ) = st := Int.toNat_of_nonneg hst.le
    have hen : ((e - s - 1).toNat : ℤ) = e - s - 1 := Int.toNat_of_nonneg (by omega)
    have hstpos : 0 < st.toNat := by omega
    constructor
    · rintro ⟨i, hi, rfl⟩
      have hi2 : i ≤ (e - s - 1).toNat / st.toNat := Nat.lt_succ_iff.mp hi
      have hi3 : i * st.toNat ≤ (e - s - 1).toNat := (Nat.le_div_iff_mul_le hstpos).mp hi2
      have hi4 : (i : ℤ) * st ≤ e - s - 1 := by
        have hc : ((i * st.toNat : ℕ) : ℤ) ≤ (((e - s - 1).toNat : ℕ) : ℤ) :=
          Int.ofNat_le.mpr hi3
        push_cast at hc
        rw [hstn, hen] at hc
        exact hc
      have hnn : 0 ≤ (i : ℤ) * st := mul_nonneg (Int.ofNat_nonneg i) hst.le
      exact ⟨by linarith, by linarith, ⟨(i : ℤ), by ring⟩⟩
    · rintro ⟨hs, hlt, ⟨k, hk⟩⟩
      have hk0 : 0 ≤ k := by
        by_contra hneg
        push_neg at hneg
        have : st * k < 0 := mul_neg_of_pos_of_neg hst hneg
        omega
      have hkn : (k.toNat : ℤ) = k := Int.toNat_of_nonneg hk0
      refine ⟨k.toNat, ?_, ?_⟩
      · have h1 : k * st ≤ e - s - 1 := by
          have hcm : k * st = st * k := mul_comm k st
          linarith [hk, hlt]
        have h2 : k.toNat * st.toNat ≤ (e - s - 1).toNat := by
          have hc : ((k.toNat * st.toNat : ℕ) : ℤ) ≤ (((e - s - 1).toNat : ℕ) : ℤ) := by
            push_cast
            rw [hkn, hstn, hen]
            exact h1
          exact_mod_cast hc
        exact Nat.lt_succ_of_le ((Nat.le_div_iff_mul_le hstpos).mpr h2)
      · have hcm : (k.toNat : ℤ) * st = st * k := by rw [hkn]; ring
        linarith [hk]
  · rw [if_neg hse]
    simp only [List.range_zero, List.map_nil, List.not_mem_nil, false_iff]
    rintro ⟨hs, hlt, -⟩
    omega

/-- For a negative step, membership in the embedded `range` is the
descending arithmetic progression condition. -/
theorem mem_pyRange_neg {s e st : ℤ} (hst : st < 0) (n : ℤ) :
    n ∈ pyRange s e st ↔ (e < n ∧ n ≤ s ∧ st ∣ n - s) := by
  unfold pyRange pyRangeLen
  rw [if_neg (by omega), if_pos hst]
  by_cases hes : e < s
  · rw [if_pos hes]
    simp only [List.mem_map, List.mem_range]
    have hstn : ((-st).toNat : ℤ) = -st := Int.toNat_of_nonneg (by omega)
    have hen : ((s - e - 1).toNat : ℤ) = s - e - 1 := Int.toNat_of_nonneg (by omega)
    have hstpos : 0 < (-st).toNat := by omega
    constructor
    · rintro ⟨i, hi, rfl⟩
      have hi2 : i ≤ (s - e - 1).toNat / (-st).toNat := Nat.lt_succ_iff.mp hi
      have hi3 : i * (-st).toNat ≤ (s - e - 1).toNat := (Nat.le_div_iff_mul_le hstpos).mp hi2
      have hi4 : (i : ℤ) * (-st) ≤ s - e - 1 := by
        have hc : ((i * (-st).toNat : ℕ) : ℤ) ≤ (((s - e - 1).toNat : ℕ) : ℤ) :=
          Int.ofNat_le.mpr hi3
        push_cast at hc
        rw [hstn, hen] at hc
        exact hc
      have hmn : (i : ℤ) * (-st) = -((i : ℤ) * st) := by ring
      have h0 : 0 ≤ (i : ℤ) * (-st) := mul_nonneg (Int.ofNat_nonneg i) (by omega)
      refine ⟨by linarith, by linarith, ⟨(i : ℤ), by ring⟩⟩
    · rintro ⟨hlt, hs, ⟨k, hk⟩⟩
      have hk0 : 0 ≤ k := by
        by_contra hneg2
        push_neg at hneg2
        have : 0 < st * k := mul_pos_of_neg_of_neg hst hneg2
        omega
      have hkn : (k.toNat : ℤ) = k := Int.toNat_of_nonneg hk0
      refine ⟨k.toNat, ?_, ?_⟩
      · have hcm : k * (-st) = -(st * k) := by ring
        have h1 : k * (-st) ≤ s - e - 1 := by linarith [hk, hlt]
        have h2 : k.toNat * (-st).toNat ≤ (s - e - 1).toNat := by
          have hc : ((k.toNat * (-st).toNat : ℕ) : ℤ) ≤ (((s - e - 1).toNat : ℕ) : ℤ) := by
            push_cast
            rw [hkn, hstn, hen]
            exact h1
          exact_mod_cast hc
        exact Nat.lt_succ_of_le ((Nat.le_div_iff_mul_le hstpos).mpr h2)
      · have hcm : (k.toNat : ℤ) * st = st * k := by rw [hkn]; ring
        linarith [hk]
  · rw [if_neg hes]
    simp only [List.range_zero, List.map_nil, List.not_mem_nil, false_iff]
    rintro ⟨hlt, hs, -⟩
    omega

/-- The embedded `range` has no duplicate elements when the step is
non-zero. -/
theorem pyRange_nodup (s e st : ℤ) (hst : st ≠ 0) : (pyRange s e st).Nodup := by
  unfold pyRange
  refine List.Nodup.map ?_ (List.nodup_range _)
  intro i j hij
  have hij2 : s + (i : ℤ) * st = s + (j : ℤ) * st := hij
  have h1 : (i : ℤ) * st = (j : ℤ) * st := by linarith [hij2]
  have h2 : (i : ℤ) = j := mul_right_cancel₀ hst h1
  exact_mod_cast h2

/-- For a positive step, the embedded `range` as a finite set is the
divisibility-filtered integer interval. -/
theorem pyRange_toFinset_pos {s e st : ℤ} (hst : 0 < st) :
    (pyRange s e st).toFinset = (Finset.Icc s (e - 1)).filter (fun n => st ∣ n - s) := by
  ext n
  simp only [List.mem_toFinset, Finset.mem_filter, Finset.mem_Icc, mem_pyRange_pos hst]
  constructor
  · rintro ⟨h1, h2, h3⟩
    exact ⟨⟨h1, by omega⟩, h3⟩
  · rintro ⟨⟨h1, h2⟩, h3⟩
    exact ⟨h1, by omega, h3⟩

/-- For a negative step, the embedded `range` as a finite set is the
divisibility-filtered integer interval. -/
theorem pyRange_toFinset_neg {s e st : ℤ} (hst : st < 0) :
    (pyRange s e st).toFinset = (Finset.Icc (e + 1) s).filter (fun n => st ∣ n - s) := by
  ext n
  simp only [List.mem_toFinset, Finset.mem_filter, Finset.mem_Icc, mem_pyRange_neg hst]
  constructor
  · rintro ⟨h1, h2, h3⟩
    exact ⟨⟨by omega, h2⟩, h3⟩
  · rintro ⟨⟨h1, h2⟩, h3⟩
    exact ⟨by omega, h2, h3⟩

/-- C7: for all integers `s`, `e` and non-zero `st`, `cpu_bound s e st`
equals the sum of `num ^ 2` over the integers of `range(s, e, st)` as
described arithmetically by `cpu_bound_spec`, and it returns 0 when the
range is empty. -/
theorem cpu_bound_matches_spec (s e st : ℤ) (hst : st ≠ 0) :
    cpu_bound s e st = cpu_bound_spec s e st
    ∧ (pyRangeLen s e st = 0 → cpu_bound s e st = 0) := by
  constructor
  · have hnd := pyRange_nodup s e st hst
    have hsum := List.sum_toFinset (fun n : ℤ => n ^ 2) hnd
    rcases lt_or_gt_of_ne hst with hneg | hpos
    · rw [cpu_bound, ← hsum, pyRange_toFinset_neg hneg, cpu_bound_spec, if_neg (by omega)]
    · rw [cpu_bound, ← hsum, pyRange_toFinset_pos hpos, cpu_bound_spec, if_pos hpos]
  · intro h0
    rw [cpu_bound, pyRange, h0]
    simp

/-- Witness for C7 at the concrete call `cpu_bound 1 10 2`. -/
theorem cpu_bound_matches_spec_witness :
    cpu_bound 1 10 2 = cpu_bound_spec 1 10 2
    ∧ (pyRangeLen 1 10 2 = 0 → cpu_bound 1 10 2 = 0) :=
  cpu_bound_matches_spec 1 10 2 (by decide)

example : cpu_bound 1 10 2 = 165 := by decide
example : cpu_bound 3 0 (-1) = 14 := by decide
example : cpu_bound 5 5 1 = 0 := by decide
